import Mathlib

/-!
Verification of the unistore storage-node core (package tikv, package
raftstore, package main) against its natural-language specification.

The Go sources are shallowly embedded: pure functions become Lean
functions, handler panics become `Except.error`, the effects a claim
observes (calls into the MVCC store, messages sent to the router, calls
to the scan split-key path) are recorded explicitly in the returned
values.  External collaborators that are not part of the provided
sources (the MVCC store itself, the coprocessor split-checker host,
protobuf marshalling) enter as function parameters or as definitions
marked `Modelled from the spec:`.
-/

namespace UStore

/-- Byte strings, the payload currency of the key-value store. -/
abbrev Bytes := List Nat

/-! ## tikv/server.go: request size check -/

/-- requestMaxSize from server.go: 6 MiB ceiling derived from the raft
log entry-size limitation. -/
def requestMaxSize : Nat := 6 * 1024 * 1024

/-- Embedding of errorpb.Error as used by server.go: only the
RaftEntryTooLarge field is ever set. -/
structure PbError where
  raftEntryTooLarge : Bool := false
deriving DecidableEq

/-- checkRequestSize from server.go: a request of size at least
requestMaxSize yields the RaftEntryTooLarge error, otherwise nil. -/
def checkRequestSize (size : Nat) : Option PbError :=
  if size ≥ requestMaxSize then some { raftEntryTooLarge := true } else none

/-- checkRequestContext from server.go: always nil. -/
def checkRequestContext (ctx : Unit) : Option PbError := none

/-- checkRequest from server.go: context check, then size check. -/
def checkRequest (ctx : Unit) (size : Nat) : Option PbError :=
  match checkRequestContext ctx with
  | some e => some e
  | none => checkRequestSize size

/-- checkKeyInRegion from server.go: returns true for every key. -/
def checkKeyInRegion (key : Bytes) : Bool := true

/-! ## tikv/server.go: MVCC error conversion -/

/-- Modelled from the spec: the MVCC key type held inside ErrLocked
(its declaration is not in the provided sources); Raw returns the raw
user key without the internal timestamp suffix. -/
structure MvccKey where
  raw : Bytes
deriving DecidableEq

/-- Raw user key of an MVCC key. -/
def MvccKey.Raw (k : MvccKey) : Bytes := k.raw

/-- Modelled from the spec: the errors the MVCC store can return
(ErrLocked and ErrRetryable declarations are not in the provided
sources); `other` stands for every remaining non-nil error value. -/
inductive MvccError
  | locked (key : MvccKey) (primary : Bytes) (startTS : Nat) (ttl : Nat)
  | retryable (msg : String)
  | other (msg : String)
deriving DecidableEq

/-- Modelled from the spec: the rendered message of an error value
(the Go Error method, not in the provided sources). -/
def MvccError.message : MvccError → String
  | MvccError.locked _ _ _ _ => "key is locked"
  | MvccError.retryable m => m
  | MvccError.other m => m

/-- Embedding of kvrpcpb.LockInfo as populated by convertToKeyError. -/
structure LockInfo where
  key : Bytes
  primaryLock : Bytes
  lockVersion : Nat
  lockTtl : Nat
deriving DecidableEq

/-- Embedding of kvrpcpb.KeyError: three optional fields, Locked,
Retryable and Abort. -/
structure KeyError where
  locked : Option LockInfo := none
  retryable : Option String := none
  abort : Option String := none
deriving DecidableEq

/-- Number of populated fields of a KeyError. -/
def KeyError.setCount (k : KeyError) : Nat :=
  (if k.locked.isSome then 1 else 0) +
    (if k.retryable.isSome then 1 else 0) +
    (if k.abort.isSome then 1 else 0)

/-- convertToKeyError from server.go: an ErrLocked becomes the Locked
field, an ErrRetryable the Retryable field, every other error the
Abort field. -/
def convertToKeyError (e : MvccError) : KeyError :=
  match e with
  | MvccError.locked k primary startTS ttl =>
      { locked := some { key := k.Raw, primaryLock := primary,
                         lockVersion := startTS, lockTtl := ttl } }
  | MvccError.retryable _ => { retryable := some e.message }
  | MvccError.other _ => { abort := some e.message }

/-- convertToKeyErrors from server.go: walks the error slice and
appends a converted entry only for the non-nil errors. -/
def convertToKeyErrors (errs : List (Option MvccError)) : List KeyError :=
  match errs with
  | [] => []
  | none :: rest => convertToKeyErrors rest
  | some e :: rest => convertToKeyError e :: convertToKeyErrors rest

/-! ## tikv/server.go: pair conversion -/

/-- Modelled from the spec: the Pair result unit of batched reads (its
declaration is not in the provided sources): key, value and an
optional per-key error. -/
structure Pair where
  key : Bytes
  value : Bytes
  err : Option MvccError
deriving DecidableEq

/-- Embedding of kvrpcpb.KvPair; a field left at its default is
unset. -/
structure KvPair where
  key : Bytes := []
  value : Option Bytes := none
  error : Option KeyError := none
deriving DecidableEq

/-- convertToPbPairs from server.go: a pair without error keeps its
key and value, a pair with an error carries only the converted
error. -/
def convertToPbPairs (pairs : List Pair) : List KvPair :=
  pairs.map (fun p =>
    match p.err with
    | none => { key := p.key, value := some p.value }
    | some e => { error := some (convertToKeyError e) })

/-! ## tikv/server.go: request handlers

Each handler is embedded as a function of the MVCC store operation it
invokes (the MVCC store implementation is not in the provided
sources); a Go panic becomes `Except.error` carrying the panic
message. -/

/-- Embedding of kvrpcpb.Mutation (only the fields server.go reads). -/
structure Mutation where
  key : Bytes
  value : Bytes
deriving DecidableEq

/-- Embedding of kvrpcpb.GetRequest. -/
structure GetRequest where
  key : Bytes
  version : Nat
deriving DecidableEq

/-- Embedding of kvrpcpb.GetResponse. -/
structure GetResponse where
  error : Option KeyError := none
  value : Bytes := []
deriving DecidableEq

/-- Embedding of kvrpcpb.ScanRequest. -/
structure ScanRequest where
  startKey : Bytes
  limit : Nat
  version : Nat
deriving DecidableEq

/-- Embedding of kvrpcpb.ScanResponse. -/
structure ScanResponse where
  pairs : List KvPair
deriving DecidableEq

/-- Embedding of kvrpcpb.PrewriteRequest. -/
structure PrewriteRequest where
  mutations : List Mutation
  primaryLock : Bytes
  startVersion : Nat
  lockTtl : Nat
deriving DecidableEq

/-- Embedding of kvrpcpb.PrewriteResponse, instrumented with a flag
recording whether mvccStore.Prewrite was invoked. -/
structure PrewriteResult where
  errors : List KeyError
  prewriteCalled : Bool
deriving DecidableEq

/-- Embedding of kvrpcpb.CommitRequest. -/
structure CommitRequest where
  keys : List Bytes
  startVersion : Nat
  commitVersion : Nat
deriving DecidableEq

/-- Embedding of kvrpcpb.CommitResponse. -/
structure CommitResponse where
  error : Option KeyError := none
deriving DecidableEq

/-- Embedding of kvrpcpb.BatchGetRequest. -/
structure BatchGetRequest where
  keys : List Bytes
  version : Nat
deriving DecidableEq

/-- Embedding of kvrpcpb.BatchGetResponse. -/
structure BatchGetResponse where
  pairs : List KvPair
deriving DecidableEq

/-- KvGet from server.go: panic when the key is out of region, else
call mvccStore.Get and convert a failure. -/
def KvGetRun (get : Bytes → Nat → Except MvccError Bytes)
    (req : GetRequest) : Except String GetResponse :=
  if checkKeyInRegion req.key then
    match get req.key req.version with
    | Except.error e => Except.ok { error := some (convertToKeyError e) }
    | Except.ok v => Except.ok { value := v }
  else Except.error "KvGet: key not in region"

/-- KvScan from server.go: panic when the start key is out of region,
else call mvccStore.Scan with the server's end key and convert the
pairs. -/
def KvScanRun (scan : Bytes → Bytes → Nat → Nat → List Pair)
    (endKey : Bytes) (req : ScanRequest) : Except String ScanResponse :=
  if checkKeyInRegion req.startKey then
    Except.ok { pairs := convertToPbPairs (scan req.startKey endKey req.limit req.version) }
  else Except.error "KvScan: startKey not in region"

/-- KvPrewrite from server.go: panic when some mutation key is out of
region, else call mvccStore.Prewrite on all mutations and convert the
error slice; no size check appears on this path. -/
def KvPrewriteRun
    (prewrite : List Mutation → Bytes → Nat → Nat → List (Option MvccError))
    (req : PrewriteRequest) : Except String PrewriteResult :=
  if req.mutations.all (fun m => checkKeyInRegion m.key) then
    Except.ok { errors := convertToKeyErrors
                  (prewrite req.mutations req.primaryLock req.startVersion req.lockTtl),
                prewriteCalled := true }
  else Except.error "KvPrewrite: key not in region"

/-- KvCommit from server.go: panic when some key is out of region,
else call mvccStore.Commit and convert a failure. -/
def KvCommitRun (commit : List Bytes → Nat → Nat → Option MvccError)
    (req : CommitRequest) : Except String CommitResponse :=
  if req.keys.all checkKeyInRegion then
    match commit req.keys req.startVersion req.commitVersion with
    | some e => Except.ok { error := some (convertToKeyError e) }
    | none => Except.ok { error := none }
  else Except.error "KvCommit: key not in region"

/-- KvBatchGet from server.go: panic when some key is out of region,
else call mvccStore.BatchGet and convert the pairs. -/
def KvBatchGetRun (batchGet : List Bytes → Nat → List Pair)
    (req : BatchGetRequest) : Except String BatchGetResponse :=
  if req.keys.all checkKeyInRegion then
    Except.ok { pairs := convertToPbPairs (batchGet req.keys req.version) }
  else Except.error "KvBatchGet: key not in region"

/-- True when the embedded handler took a panic branch. -/
def panicked {α : Type} : Except String α → Bool
  | Except.error _ => true
  | Except.ok _ => false

/-! ## tikv/raftstore/worker.go: task kinds and the worker loop -/

/-- taskType from worker.go (an int64 in the source). -/
abbrev taskType := Int

/-- Task kind constants from worker.go. -/
def taskTypeStop : taskType := 0

/-- Raft-log garbage collection task kind. -/
def taskTypeRaftLogGC : taskType := 1

/-- Split-check task kind. -/
def taskTypeSplitCheck : taskType := 2

/-- Compute-hash task kind. -/
def taskTypeComputeHash : taskType := 3

/-- PD heartbeat task kind. -/
def taskTypePDHeartbeat : taskType := 103

/-- Compact task kind. -/
def taskTypeCompact : taskType := 201

/-- task from worker.go: a kind tag plus a payload (`data
interface\x7b\x7d` in the source, embedded as a type parameter). -/
structure task (α : Type) where
  tp : taskType
  data : α
deriving DecidableEq

/-- Embedding of the consumer-loop body spawned by worker.start over
the finite sequence of tasks the channel delivers in FIFO enqueue
order.  The first component lists, in execution order, the tasks
passed to runner.run; the second is true exactly when the loop
returned (upon which the deferred wg.Done signals the shared
WaitGroup). -/
def workerLoop {α : Type} (queue : List (task α)) : List (task α) × Bool :=
  match queue with
  | [] => ([], false)
  | t :: rest =>
    if t.tp = taskTypeStop then ([], true)
    else
      let r := workerLoop rest
      (t :: r.1, r.2)

/-! ## tikv/raftstore/worker.go: split-check runner -/

/-- Embedding of metapb.RegionEpoch. -/
structure RegionEpoch where
  confVer : Nat
  version : Nat
deriving DecidableEq

/-- Embedding of metapb.Region (the fields splitCheckRunner.run
reads). -/
structure Region where
  id : Nat
  startKey : Bytes
  endKey : Bytes
  regionEpoch : RegionEpoch
deriving DecidableEq

/-- Embedding of pdpb.CheckPolicy. -/
inductive CheckPolicy
  | scan
  | approximate
deriving DecidableEq

/-- splitCheckTask from worker.go. -/
structure splitCheckTask where
  region : Region
  autoSplit : Bool
  policy : CheckPolicy
deriving DecidableEq

/-- Modelled from the spec: the coprocessor split-checker host built
by newSplitCheckerHost (not in the provided sources), captured by its
observable outcomes for the task at hand: whether it reports skip,
the effective policy, and the result of approximateSplitKeys (a key
list still carrying the internal encoding, or an error message). -/
structure splitCheckerHost where
  skip : Bool
  policy : CheckPolicy
  approximateSplitKeys : Except String (List Bytes)

/-- Modelled from the spec: the one-byte internal data-namespace
marker prepended to stored keys (EncStartKey, EncEndKey and OriginKey
are not in the provided sources). -/
def encKeyMarker : Nat := 122

/-- Internal encoding of a raw key. -/
def EncKey (k : Bytes) : Bytes := encKeyMarker :: k

/-- Encoded start key of a region. -/
def EncStartKey (r : Region) : Bytes := EncKey r.startKey

/-- Encoded end key of a region. -/
def EncEndKey (r : Region) : Bytes := EncKey r.endKey

/-- Strips the internal encoding from a stored key. -/
def OriginKey (k : Bytes) : Bytes := k.drop 1

/-- scanSplitKeys from worker.go: currently a placeholder that returns
no keys and no error. -/
def scanSplitKeys (host : splitCheckerHost) (region : Region)
    (startKey endKey : Bytes) : Except String (List Bytes) :=
  Except.ok []

/-- Embedding of the raftstore message type tag (only the split-region
variant is used by the split-check runner). -/
inductive MsgType
  | splitRegion
deriving DecidableEq

/-- MsgSplitRegion payload: the region epoch at check time plus the
candidate split keys. -/
structure MsgSplitRegion where
  regionEpoch : RegionEpoch
  splitKeys : List Bytes
deriving DecidableEq

/-- Payload of a raftstore message. -/
inductive MsgData
  | splitRegion (m : MsgSplitRegion)
deriving DecidableEq

/-- Embedding of the raftstore Msg sent to the router. -/
structure Msg where
  type : MsgType
  regionID : Nat
  data : MsgData
deriving DecidableEq

/-- Observable effects of one splitCheckRunner.run invocation: the
ranges passed to scanSplitKeys and the messages handed to
router.send (the send result is only logged, so it does not appear;
each listed message is exactly one send attempt). -/
structure RunTrace where
  scanCalls : List (Bytes × Bytes)
  sends : List Msg
deriving DecidableEq

/-- Tail of splitCheckRunner.run: when the key list is non-empty,
build the single MsgTypeSplitRegion message carrying the region's
epoch and the keys and attempt one send; otherwise send nothing. -/
def splitCheckSendOut (regionId : Nat) (region : Region)
    (keys : List Bytes) (scanCalls : List (Bytes × Bytes)) : RunTrace :=
  if keys.length ≠ 0 then
    { scanCalls := scanCalls,
      sends := [{ type := MsgType.splitRegion, regionID := regionId,
                  data := MsgData.splitRegion
                    { regionEpoch := region.regionEpoch, splitKeys := keys } }] }
  else { scanCalls := scanCalls, sends := [] }

/-- splitCheckRunner.run from worker.go: build the checker host; stop
if it reports skip; under the scan policy use scanSplitKeys; under the
approximate policy use approximateSplitKeys, stripping the internal
encoding from its keys on success and falling back to scanSplitKeys
over the same encoded range on failure; a failing scan drops the
task. -/
def splitCheckRun (host : splitCheckerHost) (t : splitCheckTask) : RunTrace :=
  let region := t.region
  let regionId := region.id
  let startKey := EncStartKey region
  let endKey := EncEndKey region
  if host.skip then { scanCalls := [], sends := [] }
  else
    match host.policy with
    | CheckPolicy.scan =>
      match scanSplitKeys host region startKey endKey with
      | Except.error _ => { scanCalls := [(startKey, endKey)], sends := [] }
      | Except.ok keys => splitCheckSendOut regionId region keys [(startKey, endKey)]
    | CheckPolicy.approximate =>
      match host.approximateSplitKeys with
      | Except.ok keys =>
          splitCheckSendOut regionId region (keys.map OriginKey) []
      | Except.error _ =>
        match scanSplitKeys host region startKey endKey with
        | Except.error _ => { scanCalls := [(startKey, endKey)], sends := [] }
        | Except.ok keys => splitCheckSendOut regionId region keys [(startKey, endKey)]

/-! ## node/main.go: internal metadata keys and loadMeta -/

/-- InternalKeyPrefix from node/main.go (renamed: the identifier may
not end in a reserved word here). -/
def internalKeyNs : String := "internal\\"

/-- InternalRegionMetaPrefix from node/main.go (renamed as above). -/
def internalRegionMetaNs : String := internalKeyNs ++ "region"

/-- InternalStoreMetaKey from node/main.go. -/
def InternalStoreMetaKey : String := internalKeyNs ++ "store"

/-- InternalRegionMetaKey from node/main.go: region prefix followed by
the region id in decimal. -/
def InternalRegionMetaKey (regionId : Nat) : String :=
  internalRegionMetaNs ++ toString regionId

/-- Embedding of metapb.Store (the fields node/main.go touches). -/
structure StoreMeta where
  id : Nat
  address : String
deriving DecidableEq

/-- Modelled from the spec: a stored metadata value is the protobuf
serialization of either a store or a region record (marshalling is
external to this repository). -/
inductive MetaVal
  | store (m : StoreMeta)
  | region (r : Region)
deriving DecidableEq

/-- Modelled from the spec: proto.Unmarshal into a freshly allocated
Region (loadMeta ignores the unmarshal error, so a mismatched blob
leaves the zero-valued region). -/
def unmarshalRegion : MetaVal → Region
  | MetaVal.region r => r
  | MetaVal.store _ =>
      { id := 0, startKey := [], endKey := [],
        regionEpoch := { confVer := 0, version := 0 } }

/-- Modelled from the spec: proto.Unmarshal into the node's existing
storeMeta (the error is ignored, a mismatched blob leaves it
unchanged). -/
def unmarshalStore (v : MetaVal) (old : StoreMeta) : StoreMeta :=
  match v with
  | MetaVal.store m => m
  | MetaVal.region _ => old

/-- The badger database contents visible to loadMeta, as its key-
ordered association list. -/
abbrev MetaDB := List (String × MetaVal)

/-- Point lookup (txn.Get); none models badger.ErrKeyNotFound. -/
def dbGet (db : MetaDB) (k : String) : Option MetaVal :=
  match db with
  | [] => none
  | kv :: rest => if kv.fst = k then some kv.snd else dbGet rest k

/-- The node's in-memory region map, id-keyed. -/
abbrev RegionMap := List (Nat × Region)

/-- Go map assignment: insert or replace the binding for a key. -/
def mapInsert (m : RegionMap) (k : Nat) (v : Region) : RegionMap :=
  match m with
  | [] => [(k, v)]
  | kv :: rest => if kv.fst = k then (k, v) :: rest else kv :: mapInsert rest k v

/-- Go map read. -/
def mapLookup (m : RegionMap) (k : Nat) : Option Region :=
  match m with
  | [] => none
  | kv :: rest => if kv.fst = k then some kv.snd else mapLookup rest k

/-- The node state loadMeta rebuilds. -/
structure NodeState where
  storeMeta : StoreMeta
  regions : RegionMap
deriving DecidableEq

/-- The iterator loop of loadMeta: each visited entry is unmarshalled
as a region and stored in the region map under its own id. -/
def loadRegionEntries (m : RegionMap) (entries : List (String × MetaVal)) : RegionMap :=
  match entries with
  | [] => m
  | kv :: rest =>
      loadRegionEntries (mapInsert m (unmarshalRegion kv.snd).id (unmarshalRegion kv.snd)) rest

/-- Byte-prefix test on keys, modelling badger's ValidForPrefix. -/
def strHasPre (pre s : String) : Bool := pre.toList.isPrefixOf s.toList

/-- loadMeta from node/main.go: read the store meta key (a missing key
aborts the transaction early, treated as non-fatal, leaving the node
unchanged), then iterate every key carrying the region meta prefix in
key order, rebuilding the id-keyed region map. -/
def loadMeta (db : MetaDB) (n : NodeState) : NodeState :=
  match dbGet db InternalStoreMetaKey with
  | none => n
  | some v =>
      { storeMeta := unmarshalStore v n.storeMeta,
        regions := loadRegionEntries n.regions
          (db.filter (fun kv => strHasPre internalRegionMetaNs kv.fst)) }

/-! ## Concrete instances used by the analyses below -/

/-- A concrete Prewrite call: two mutations over distinct keys. -/
def prewriteTwoReq : PrewriteRequest :=
  { mutations := [{ key := [1], value := [10] }, { key := [2], value := [20] }],
    primaryLock := [1], startVersion := 5, lockTtl := 1000 }

/-- An MVCC store outcome for prewriteTwoReq: the per-mutation result
sequence aligned with the mutations, first slot nil (success), second
slot a write conflict. -/
def prewriteTwoOutcome : List Mutation → Bytes → Nat → Nat → List (Option MvccError) :=
  fun _ _ _ _ => [none, some (MvccError.other "conflict")]

/-- A concrete region for the metadata load analysis. -/
def c8Region : Region :=
  { id := 2, startKey := [], endKey := [],
    regionEpoch := { confVer := 1, version := 1 } }

/-- A concrete database holding one store entry and one region
entry under the internal namespace. -/
def c8Db : MetaDB :=
  [(InternalStoreMetaKey, MetaVal.store { id := 1, address := "a" }),
   (InternalRegionMetaKey 2, MetaVal.region c8Region)]

/-- A freshly booted node. -/
def c8Node : NodeState := { storeMeta := { id := 0, address := "" }, regions := [] }

/-- A concrete task for the split-check analyses. -/
def c4Task : splitCheckTask :=
  { region := { id := 9, startKey := [3], endKey := [7],
                regionEpoch := { confVer := 1, version := 4 } },
    autoSplit := true, policy := CheckPolicy.approximate }

/-! ## Theorems -/

/-- Every key list passes the region membership check. -/
theorem all_checkKeyInRegion (ks : List Bytes) : ks.all checkKeyInRegion = true :=
  List.all_eq_true.mpr fun _ _ => rfl

/-- Every mutation list passes the region membership check. -/
theorem all_mut_checkKeyInRegion (ms : List Mutation) :
    ms.all (fun m => checkKeyInRegion m.key) = true :=
  List.all_eq_true.mpr fun _ _ => rfl

/-- Claim C1: the size check itself rejects a payload of exactly the
6 MiB ceiling with the RaftEntryTooLarge signal, both directly and
through checkRequest; yet KvPrewrite consults no size check at all, so
mvccStore.Prewrite is invoked for every request, oversized ones
included. -/
theorem C1_size_check_not_wired :
    checkRequestSize requestMaxSize = some { raftEntryTooLarge := true }
    ∧ checkRequest () requestMaxSize = some { raftEntryTooLarge := true }
    ∧ (∀ (prewrite : List Mutation → Bytes → Nat → Nat → List (Option MvccError))
         (req : PrewriteRequest),
        KvPrewriteRun prewrite req = Except.ok
          { errors := convertToKeyErrors
              (prewrite req.mutations req.primaryLock req.startVersion req.lockTtl),
            prewriteCalled := true }) := by
  refine ⟨by simp [checkRequestSize, requestMaxSize], by simp [checkRequest, checkRequestContext, checkRequestSize, requestMaxSize], fun prewrite req => ?_⟩
  simp [KvPrewriteRun, all_mut_checkKeyInRegion]

/-- Claim C2 counterexample: a Prewrite request with two mutations
whose MVCC outcome is one success and one error yields a response
error sequence of length one, not two, so the sequence is not aligned
slot-by-slot with the mutations. -/
theorem C2_counterexample :
    KvPrewriteRun prewriteTwoOutcome prewriteTwoReq = Except.ok
      { errors := [{ locked := none, retryable := none, abort := some "conflict" }],
        prewriteCalled := true }
    ∧ prewriteTwoReq.mutations.length = 2
    ∧ ([{ locked := none, retryable := none, abort := some "conflict" }] : List KeyError).length
        ≠ prewriteTwoReq.mutations.length := by
  refine ⟨rfl, rfl, by decide⟩

/-- Claim C2 (amended): convertToKeyErrors keeps only the non-nil
errors, in order; the Prewrite response therefore carries one entry
per failing mutation, and successful mutations leave no slot. -/
theorem C2_errors_compacted :
    (∀ errs : List (Option MvccError),
        convertToKeyErrors errs = (errs.filterMap id).map convertToKeyError)
    ∧ (∀ (prewrite : List Mutation → Bytes → Nat → Nat → List (Option MvccError))
         (req : PrewriteRequest),
        KvPrewriteRun prewrite req = Except.ok
          { errors := ((prewrite req.mutations req.primaryLock req.startVersion
                          req.lockTtl).filterMap id).map convertToKeyError,
            prewriteCalled := true }) := by
  have key : ∀ errs : List (Option MvccError),
      convertToKeyErrors errs = (errs.filterMap id).map convertToKeyError := by
    intro errs
    induction errs with
    | nil => rfl
    | cons h rest ih => cases h <;> simp [convertToKeyErrors, ih]
  refine ⟨key, fun prewrite req => ?_⟩
  simp [KvPrewriteRun, all_mut_checkKeyInRegion, key]

/-- Claim C6: conversion of a non-nil MVCC error populates exactly one
of the three KeyError fields: ErrLocked becomes Locked carrying the
raw key, primary, lock start timestamp and TTL; ErrRetryable becomes
Retryable; every other error becomes Abort. -/
theorem C6_key_error_three_kinds :
    (∀ (k : MvccKey) (p : Bytes) (ts ttl : Nat),
        convertToKeyError (MvccError.locked k p ts ttl)
          = { locked := some { key := k.Raw, primaryLock := p,
                               lockVersion := ts, lockTtl := ttl },
              retryable := none, abort := none })
    ∧ (∀ m : String, convertToKeyError (MvccError.retryable m)
          = { locked := none, retryable := some m, abort := none })
    ∧ (∀ m : String, convertToKeyError (MvccError.other m)
          = { locked := none, retryable := none, abort := some m })
    ∧ (∀ e : MvccError, (convertToKeyError e).setCount = 1) := by
  refine ⟨fun k p ts ttl => rfl, fun m => rfl, fun m => rfl, fun e => ?_⟩
  cases e <;> rfl

/-- Claim C7: each converted pair corresponds positionally to its
source pair and carries the value exactly when the source had no
error, the converted error exactly when it had one, and never both. -/
theorem C7_pairs_value_xor_error (pairs : List Pair) :
    List.Forall₂ (fun p q =>
        (p.err = none → q.value = some p.value ∧ q.error = none)
      ∧ (∀ e, p.err = some e → q.value = none ∧ q.error = some (convertToKeyError e))
      ∧ (q.value = none ∨ q.error = none))
      pairs (convertToPbPairs pairs) := by
  induction pairs with
  | nil => simp [convertToPbPairs]
  | cons p rest ih =>
    have hcons : convertToPbPairs (p :: rest)
        = (match p.err with
           | none => { key := p.key, value := some p.value }
           | some e => { error := some (convertToKeyError e) }) :: convertToPbPairs rest := rfl
    rw [hcons]
    refine List.Forall₂.cons ?_ ih
    cases hp : p.err with
    | none => simp [hp]
    | some e => simp [hp]

/-- Claim C9: the region membership check accepts every key, so none
of the five handlers ever takes its key-not-in-region panic branch,
for any request and any MVCC store behavior. -/
theorem C9_no_key_in_region_panic :
    (∀ k : Bytes, checkKeyInRegion k = true)
    ∧ (∀ (get : Bytes → Nat → Except MvccError Bytes) (req : GetRequest),
        panicked (KvGetRun get req) = false)
    ∧ (∀ (scan : Bytes → Bytes → Nat → Nat → List Pair) (endKey : Bytes)
         (req : ScanRequest), panicked (KvScanRun scan endKey req) = false)
    ∧ (∀ (prewrite : List Mutation → Bytes → Nat → Nat → List (Option MvccError))
         (req : PrewriteRequest), panicked (KvPrewriteRun prewrite req) = false)
    ∧ (∀ (commit : List Bytes → Nat → Nat → Option MvccError) (req : CommitRequest),
        panicked (KvCommitRun commit req) = false)
    ∧ (∀ (batchGet : List Bytes → Nat → List Pair) (req : BatchGetRequest),
        panicked (KvBatchGetRun batchGet req) = false) := by
  refine ⟨fun k => rfl, fun get req => ?_, fun scan endKey req => ?_,
          fun prewrite req => ?_, fun commit req => ?_, fun batchGet req => ?_⟩
  · rw [KvGetRun]
    simp only [checkKeyInRegion, if_true]
    cases get req.key req.version <;> rfl
  · rw [KvScanRun]
    simp only [checkKeyInRegion, if_true]
    rfl
  · rw [KvPrewriteRun, all_mut_checkKeyInRegion]
    rfl
  · rw [KvCommitRun, all_checkKeyInRegion]
    simp only [if_true]
    cases commit req.keys req.startVersion req.commitVersion <;> rfl
  · rw [KvBatchGetRun, all_checkKeyInRegion]
    rfl

/-- Claim C3: over any FIFO task sequence whose first stop-kind task
is s, the consumer loop executes exactly the tasks enqueued before s,
in enqueue order, then exits and signals the shared WaitGroup; no task
enqueued after s is executed. -/
theorem C3_worker_fifo_until_stop {α : Type} (pre post : List (task α)) (s : task α)
    (hs : s.tp = taskTypeStop) (hpre : ∀ t ∈ pre, t.tp ≠ taskTypeStop) :
    workerLoop (pre ++ s :: post) = (pre, true) := by
  induction pre with
  | nil => simp [workerLoop, hs]
  | cons t rest ih =>
    have ht : t.tp ≠ taskTypeStop := hpre t (by simp)
    have ihr := ih (fun x hx => hpre x (by simp [hx]))
    simp [workerLoop, ht, ihr]

/-- Claim C3 witness: over a concrete queue of a raft-log-GC task, a
stop task and a later split-check task, only the first task is
executed and the loop signals shutdown. -/
theorem C3_worker_fifo_until_stop_witness :
    workerLoop ([({ tp := taskTypeRaftLogGC, data := 0 } : task Nat)]
        ++ { tp := taskTypeStop, data := 0 } :: [{ tp := taskTypeSplitCheck, data := 7 }])
      = ([{ tp := taskTypeRaftLogGC, data := 0 }], true) :=
  C3_worker_fifo_until_stop [{ tp := taskTypeRaftLogGC, data := 0 }]
    [{ tp := taskTypeSplitCheck, data := 7 }] { tp := taskTypeStop, data := 0 }
    (by decide) (by decide)

/-- Claim C10: every task the consumer loop hands to runner.run has a
kind other than stop, for every task sequence. -/
theorem C10_runner_never_sees_stop {α : Type} (queue : List (task α)) (t : task α)
    (ht : t ∈ (workerLoop queue).1) : t.tp ≠ taskTypeStop := by
  induction queue with
  | nil => simp [workerLoop] at ht
  | cons q rest ih =>
    by_cases hq : q.tp = taskTypeStop
    · simp [workerLoop, hq] at ht
    · simp [workerLoop, hq] at ht
      rcases ht with h | h
      · rw [h]; exact hq
      · exact ih h

/-- Claim C10 witness: in a concrete queue the executed raft-log-GC
task indeed has a kind differing from stop. -/
theorem C10_runner_never_sees_stop_witness :
    ({ tp := taskTypeRaftLogGC, data := 0 } : task Nat).tp ≠ taskTypeStop :=
  C10_runner_never_sees_stop
    [({ tp := taskTypeRaftLogGC, data := 0 } : task Nat), { tp := taskTypeStop, data := 0 }]
    { tp := taskTypeRaftLogGC, data := 0 } (by decide)

/-- Claim C4: one split-check run attempts at most one send; when the
approximate estimate yields a non-empty key list the run sends exactly
the single split-region message for the region id, carrying the
region's epoch and the encoding-stripped keys; a skipped host, an
empty estimate or the (placeholder) scan path send nothing. -/
theorem C4_split_region_message (host : splitCheckerHost) (t : splitCheckTask) :
    ((splitCheckRun host t).sends.length ≤ 1)
    ∧ (∀ ks, host.skip = false → host.policy = CheckPolicy.approximate →
         host.approximateSplitKeys = Except.ok ks → ks ≠ [] →
         (splitCheckRun host t).sends
           = [{ type := MsgType.splitRegion, regionID := t.region.id,
                data := MsgData.splitRegion
                  { regionEpoch := t.region.regionEpoch,
                    splitKeys := ks.map OriginKey } }])
    ∧ (host.skip = true → (splitCheckRun host t).sends = [])
    ∧ (host.skip = false → host.policy = CheckPolicy.approximate →
         host.approximateSplitKeys = Except.ok [] → (splitCheckRun host t).sends = [])
    ∧ (host.policy = CheckPolicy.scan → (splitCheckRun host t).sends = []) := by
  obtain ⟨hskip, hpolicy, happrox⟩ := host
  refine ⟨?_, ?_, ?_, ?_, ?_⟩
  · cases hskip <;> cases hpolicy <;> rcases happrox with e | ks <;>
      simp [splitCheckRun, splitCheckSendOut, scanSplitKeys] <;> split <;> simp
  · rintro ks rfl rfl h hne
    have h2 : happrox = Except.ok ks := h
    subst h2
    simp [splitCheckRun, splitCheckSendOut, hne]
  · rintro rfl
    simp [splitCheckRun]
  · rintro rfl rfl h
    have h2 : happrox = Except.ok [] := h
    subst h2
    simp [splitCheckRun, splitCheckSendOut]
  · rintro rfl
    cases hskip <;> simp [splitCheckRun, splitCheckSendOut, scanSplitKeys]

/-- Claim C4 witness: a live approximate host producing one encoded
key makes the run send the single split-region message with the
region's epoch and the stripped key. -/
theorem C4_split_region_message_witness :
    (splitCheckRun { skip := false, policy := CheckPolicy.approximate,
                     approximateSplitKeys := Except.ok [[encKeyMarker, 5]] } c4Task).sends
      = [{ type := MsgType.splitRegion, regionID := 9,
           data := MsgData.splitRegion
             { regionEpoch := { confVer := 1, version := 4 }, splitKeys := [[5]] } }] :=
  (C4_split_region_message
      { skip := false, policy := CheckPolicy.approximate,
        approximateSplitKeys := Except.ok [[encKeyMarker, 5]] } c4Task).2.1
    [[encKeyMarker, 5]] rfl rfl rfl (by decide)

/-- Claim C5: when the host does not skip and the approximate estimate
fails, the run falls back to scanning the region's full encoded range
(one scanSplitKeys call on exactly that range); when the host reports
skip the run is a no-op, with no scan call and no send. -/
theorem C5_approximate_fallback_to_scan (host : splitCheckerHost) (t : splitCheckTask) :
    (∀ e : String, host.skip = false → host.policy = CheckPolicy.approximate →
        host.approximateSplitKeys = Except.error e →
        (splitCheckRun host t).scanCalls = [(EncStartKey t.region, EncEndKey t.region)])
    ∧ (host.skip = true → splitCheckRun host t = { scanCalls := [], sends := [] }) := by
  obtain ⟨hskip, hpolicy, happrox⟩ := host
  constructor
  · rintro e rfl rfl h
    have h2 : happrox = Except.error e := h
    subst h2
    simp [splitCheckRun, splitCheckSendOut, scanSplitKeys]
  · rintro rfl
    simp [splitCheckRun]

/-- Claim C5 witness: a failing approximate estimate on a concrete
task leads to one scan call over the region's encoded range. -/
theorem C5_approximate_fallback_to_scan_witness :
    (splitCheckRun { skip := false, policy := CheckPolicy.approximate,
                     approximateSplitKeys := Except.error "estimate failed" } c4Task).scanCalls
      = [([encKeyMarker, 3], [encKeyMarker, 7])] :=
  (C5_approximate_fallback_to_scan
      { skip := false, policy := CheckPolicy.approximate,
        approximateSplitKeys := Except.error "estimate failed" } c4Task).1
    "estimate failed" rfl rfl rfl

/-- Inserting a binding makes it visible at its key. -/
theorem mapLookup_mapInsert_self (m : RegionMap) (k : Nat) (v : Region) :
    mapLookup (mapInsert m k v) k = some v := by
  induction m with
  | nil => simp [mapInsert, mapLookup]
  | cons kv rest ih =>
    by_cases h : kv.fst = k
    · simp [mapInsert, h, mapLookup]
    · simp [mapInsert, h, mapLookup, ih]

/-- Inserting a binding leaves other keys unchanged. -/
theorem mapLookup_mapInsert_ne (m : RegionMap) (k : Nat) (v : Region) (q : Nat)
    (h : k ≠ q) : mapLookup (mapInsert m k v) q = mapLookup m q := by
  induction m with
  | nil => simp [mapInsert, mapLookup, h]
  | cons kv rest ih =>
    by_cases hk : kv.fst = k
    · simp [mapInsert, hk, mapLookup, h]
    · by_cases hq : kv.fst = q
      · simp [mapInsert, hk, mapLookup, hq, Ne.symm h]
      · simp [mapInsert, hk, mapLookup, hq, ih]

/-- The iterator loop does not touch ids absent from its entries. -/
theorem loadRegionEntries_lookup_absent (entries : List (String × MetaVal))
    (m : RegionMap) (k : Nat)
    (h : ∀ e ∈ entries, (unmarshalRegion e.snd).id ≠ k) :
    mapLookup (loadRegionEntries m entries) k = mapLookup m k := by
  induction entries generalizing m with
  | nil => rfl
  | cons e rest ih =>
    rw [loadRegionEntries]
    rw [ih _ (fun x hx => h x (List.mem_cons_of_mem e hx))]
    exact mapLookup_mapInsert_ne m _ _ k (h e (List.mem_cons_self e rest))

/-- Every entry the iterator loop visits ends up in the map under its
own region id, provided the visited ids are pairwise distinct. -/
theorem loadRegionEntries_mem (entries : List (String × MetaVal)) (m : RegionMap)
    (kv : String × MetaVal) (hmem : kv ∈ entries)
    (hdist : List.Pairwise
      (fun a b => (unmarshalRegion a.snd).id ≠ (unmarshalRegion b.snd).id) entries) :
    mapLookup (loadRegionEntries m entries) (unmarshalRegion kv.snd).id
      = some (unmarshalRegion kv.snd) := by
  induction entries generalizing m with
  | nil => cases hmem
  | cons e rest ih =>
    rcases List.mem_cons.mp hmem with h | h
    · subst h
      rw [loadRegionEntries]
      rw [loadRegionEntries_lookup_absent rest _ _
        (fun x hx => ((List.pairwise_cons.mp hdist).1 x hx).symm)]
      exact mapLookup_mapInsert_self m _ _
    · rw [loadRegionEntries]
      exact ih _ h (List.pairwise_cons.mp hdist).2

/-- Claim C8: store metadata lives under the exact key internal-
backslash-store, region metadata under the region prefix followed by
the decimal region id; loadMeta first reads the store key (leaving the
node untouched when it is absent) and then rebuilds the region map
from every key carrying the region prefix, keyed by each decoded
region's id. -/
theorem C8_internal_meta_layout :
    InternalStoreMetaKey = "internal\\store"
    ∧ (∀ id : Nat, InternalRegionMetaKey id = "internal\\region" ++ toString id)
    ∧ (∀ db n, dbGet db InternalStoreMetaKey = none → loadMeta db n = n)
    ∧ (∀ db n v, dbGet db InternalStoreMetaKey = some v →
        (loadMeta db n).storeMeta = unmarshalStore v n.storeMeta)
    ∧ (∀ db n v kv, dbGet db InternalStoreMetaKey = some v →
        kv ∈ db.filter (fun e => strHasPre internalRegionMetaNs e.fst) →
        List.Pairwise (fun a b => (unmarshalRegion a.snd).id ≠ (unmarshalRegion b.snd).id)
          (db.filter (fun e => strHasPre internalRegionMetaNs e.fst)) →
        mapLookup (loadMeta db n).regions (unmarshalRegion kv.snd).id
          = some (unmarshalRegion kv.snd)) := by
  refine ⟨rfl, fun id => rfl, fun db n h => ?_, fun db n v h => ?_, fun db n v kv h hmem hdist => ?_⟩
  · simp [loadMeta, h]
  · simp [loadMeta, h]
  · simp only [loadMeta, h]
    exact loadRegionEntries_mem _ _ kv hmem hdist

/-- Claim C8 witness: loading a concrete database holding the store
entry and one region entry under key internal-backslash-region-2
leaves region 2 retrievable from the rebuilt map. -/
theorem C8_internal_meta_layout_witness :
    mapLookup (loadMeta c8Db c8Node).regions 2 = some c8Region :=
  C8_internal_meta_layout.2.2.2.2 c8Db c8Node
    (MetaVal.store { id := 1, address := "a" })
    (InternalRegionMetaKey 2, MetaVal.region c8Region)
    rfl (by decide) (by decide)

end UStore
